import Mathlib

/-!
Shallow embedding of the ACT processor emulator core of x11-calc
(`src/x11-calc-cpu.c`, with `v_error` from `src/x11-calc.c`).

Registers are 14 nibble values indexed 0 (least significant) to 13; the
C arrays are modelled as total functions `Nat → Int` (the C nibble cells
are `int`s).  The processor status word is modelled as `Nat → Nat`
(entries 0/1), the flags named in the C `flags[]` array become named
fields.  The program counter is an `Int`, because the C code transiently
computes `target - 1` which can be `-1`.  C bitwise operations on the
(non-negative, below `2^16`) program counter are rendered arithmetically:
`pc & 00377` is `pc % 256` (exact for all two's-complement ints when the
mask is `2^k - 1`), `pc & 0xff00` is `256 * (pc / 256)` (exact for
`0 ≤ pc < 2^16`), `x << 8 | y` with `y < 256` is `x * 256 + y`.
`v_error` only prints a report and returns; it is modelled as appending
an error record to an `errors` list carried in the state.
-/

/-- Number of nibbles in a register (`REG_SIZE`); the spec (§3) fixes
N = 14 for this family. -/
def REG_SIZE : Nat := 14

/-- Modelled from the spec: `EXP_SIZE` is defined in the missing header
`x11-calc-cpu.h`.  The spec's field windows XS = `[2..=2]`,
M = `[3..=12]` and MS = `[3..=13]` (§4.2), and the register layout with
the exponent sign in nibble 2 (§3), all require `EXP_SIZE = 3`. -/
def EXP_SIZE : Nat := 3

/-- ROM size in words; `ROM_SIZE` is `07000` octal in `x11-calc-32.h`. -/
def ROM_SIZE : Nat := 3584

/-- Number of ROM banks; `ROM_BANKS` is 1 in `x11-calc-32.h`. -/
def ROM_BANKS : Nat := 1

/-- Modelled from the spec: `STACK_SIZE` is defined in the missing header
`x11-calc-cpu.h`; the spec (§3) only says the return stack is a ring
buffer indexed modulo `STACK_SIZE`, and the C code masks with
`STACK_SIZE - 1`, so it is a power of two.  The value is irrelevant to
the claims; 2 is used. -/
def STACK_SIZE : Nat := 2

/-- Modelled from the spec: `DATA_REGISTERS` is defined in the missing
header `x11-calc-cpu.h`; the spec (§3) leaves the count a parameter.
The value is irrelevant to the claims; 10 is used. -/
def DATA_REGISTERS : Nat := 10

/-- Identifiers of the eight architectural registers
(`A_REG` .. `N_REG` in the C code). -/
inductive RegId where
  | A | B | C | Y | Z | T | M | N
deriving DecidableEq

/-- Error reports produced through `v_error` (which just prints and
returns).  `unexpectedOpcode` carries the `(opcode, rom_number, pc)`
arguments the C code passes; `unexpectedError` corresponds to the
"Unexpected error" messages that carry no operands; `addressOutOfRange`
carries the offending address. -/
inductive EmErr where
  | unexpectedOpcode (opcode : Nat) (romNumber : Nat) (pc : Int)
  | unexpectedError
  | addressOutOfRange (address : Int)
deriving DecidableEq

/-- Processor state (`oprocessor` in `x11-calc-cpu.c` / the missing
`x11-calc-cpu.h`).  Register nibble arrays are total functions
`Nat → Int`; only indices `0..13` are ever read. -/
structure OProcessor where
  reg : RegId → Nat → Int
  ram : Nat → Nat → Int
  stack : Int → Int
  sp : Int
  pc : Int
  p : Nat
  f : Int
  dataAddress : Int
  first : Nat
  last : Nat
  base : Int
  status : Nat → Nat
  carry : Nat
  prevCarry : Nat
  delayedRom : Nat
  displayEnable : Nat
  mode : Nat
  delayedRomNumber : Nat
  romNumber : Nat
  keycode : Int
  keydown : Nat
  rom : Int → Nat
  errors : List EmErr

/-- Point update of a nibble array (a C assignment `r[i] = v`). -/
def updN (r : Nat → Int) (i : Nat) (v : Int) : Nat → Int :=
  fun j => if j = i then v else r j

/-- Point update of the register file. -/
def updReg (h : OProcessor) (d : RegId) (r : Nat → Int) : OProcessor :=
  { h with reg := fun j => if j = d then r else h.reg j }

/-- Point update of the status word (a C assignment `status[n] = v`). -/
def updStatus (h : OProcessor) (n : Nat) (v : Nat) : OProcessor :=
  { h with status := fun j => if j = n then v else h.status j }

/-- Loop body of `v_reg_exch`: swap nibbles at `i, i+1, …` for `cnt`
steps.  Each C iteration reads both cells at index `i` before writing
them, so both reads use the incoming arrays. -/
def exchLoop (d s : Nat → Int) (i cnt : Nat) : (Nat → Int) × (Nat → Int) :=
  match cnt with
  | 0 => (d, s)
  | n + 1 => exchLoop (updN d i (s i)) (updN s i (d i)) (i + 1) n

/-- Exchange the contents of two registers over the current field
(`v_reg_exch`). -/
def v_reg_exch (h : OProcessor) (d s : RegId) : OProcessor :=
  let r := exchLoop (h.reg d) (h.reg s) h.first (h.last + 1 - h.first)
  { h with reg := fun j => if j = d then r.1 else if j = s then r.2 else h.reg j }

/-- Loop body of `v_reg_copy`: `d[i] := src i` for `cnt` steps from `i`. -/
def copyLoop (d : Nat → Int) (src : Nat → Int) (i cnt : Nat) : Nat → Int :=
  match cnt with
  | 0 => d
  | n + 1 => copyLoop (updN d i (src i)) src (i + 1) n

/-- Copy the contents of a register over the current field
(`v_reg_copy`); a `none` source stands for the C `NULL` argument and
copies zeros. -/
def v_reg_copy (h : OProcessor) (d : RegId) (s : Option RegId) : OProcessor :=
  let src : Nat → Int := match s with
    | none => fun _ => 0
    | some r => h.reg r
  updReg h d (copyLoop (h.reg d) src h.first (h.last + 1 - h.first))

/-- Loop body of `v_reg_add`: nibble-serial addition with carry.
`dst = none` models a `NULL` destination (sum discarded, carry kept).
Each C iteration reads index `i` of the source and argument before
writing index `i` of the destination and never reads an index below
`i`, so aliased registers are faithfully modelled by the incoming
arrays. -/
def addLoop (base : Int) (dst : Option (Nat → Int)) (src arg : Nat → Int)
    (carry : Nat) (i cnt : Nat) : Option (Nat → Int) × Nat :=
  match cnt with
  | 0 => (dst, carry)
  | n + 1 =>
    let t := src i + arg i + (carry : Int)
    let tc : Int × Nat := if t ≥ base then (t - base, 1) else (t, 0)
    addLoop base (dst.map (fun d => updN d i tc.1)) src arg tc.2 (i + 1) n

/-- Add the contents of two registers over the current field
(`v_reg_add`); `d = none` and `a = none` model the C `NULL`
destination/argument. -/
def v_reg_add (h : OProcessor) (d : Option RegId) (s : RegId) (a : Option RegId) :
    OProcessor :=
  let arg : Nat → Int := match a with
    | none => fun _ => 0
    | some r => h.reg r
  let r := addLoop h.base (d.map h.reg) (h.reg s) arg h.carry h.first
      (h.last + 1 - h.first)
  let h' := { h with carry := r.2 }
  match d, r.1 with
  | some dr, some l => updReg h' dr l
  | _, _ => h'

/-- Loop body of `v_reg_sub`: nibble-serial subtraction with borrow.
`src = none` models the C `NULL` source (`0 - arg`). -/
def subLoop (base : Int) (dst : Option (Nat → Int)) (src : Option (Nat → Int))
    (arg : Nat → Int) (carry : Nat) (i cnt : Nat) : Option (Nat → Int) × Nat :=
  match cnt with
  | 0 => (dst, carry)
  | n + 1 =>
    let t0 : Int := match src with
      | some s => s i - arg i
      | none => 0 - arg i
    let t := t0 - (carry : Int)
    let tc : Int × Nat := if t < 0 then (t + base, 1) else (t, 0)
    subLoop base (dst.map (fun d => updN d i tc.1)) src arg tc.2 (i + 1) n

/-- Subtract the contents of two registers over the current field
(`v_reg_sub`); `d`, `s` and `a` may be `none` for the C `NULL`
destination/source/argument. -/
def v_reg_sub (h : OProcessor) (d : Option RegId) (s : Option RegId)
    (a : Option RegId) : OProcessor :=
  let arg : Nat → Int := match a with
    | none => fun _ => 0
    | some r => h.reg r
  let r := subLoop h.base (d.map h.reg) (s.map h.reg) arg h.carry h.first
      (h.last + 1 - h.first)
  let h' := { h with carry := r.2 }
  match d, r.1 with
  | some dr, some l => updReg h' dr l
  | _, _ => h'

/-- Loop body of `v_reg_test_eq` / `v_reg_test_ne`: scan the field from
`i` for `cnt` nibbles and return `true` as soon as a mismatch is found
(the C `break`). -/
def mismatchLoop (d s : Nat → Int) (i cnt : Nat) : Bool :=
  match cnt with
  | 0 => false
  | n + 1 => if d i ≠ s i then true else mismatchLoop d s (i + 1) n

/-- Test if registers are equal over the current field
(`v_reg_test_eq`): carry is cleared, then set on the first mismatch. -/
def v_reg_test_eq (h : OProcessor) (d : RegId) (s : Option RegId) : OProcessor :=
  let src : Nat → Int := match s with
    | none => fun _ => 0
    | some r => h.reg r
  { h with carry :=
      if mismatchLoop (h.reg d) src h.first (h.last + 1 - h.first) then 1 else 0 }

/-- Test if registers are not equal over the current field
(`v_reg_test_ne`): carry is set, then cleared on the first mismatch. -/
def v_reg_test_ne (h : OProcessor) (d : RegId) (s : Option RegId) : OProcessor :=
  let src : Nat → Int := match s with
    | none => fun _ => 0
    | some r => h.reg r
  { h with carry :=
      if mismatchLoop (h.reg d) src h.first (h.last + 1 - h.first) then 0 else 1 }

/-- Increment the contents of a register (`v_reg_inc`): set carry, then
add the carry to the register. -/
def v_reg_inc (h : OProcessor) (r : RegId) : OProcessor :=
  v_reg_add { h with carry := 1 } (some r) r none

/-- Loop body of `v_reg_shr`, ascending over the field: each C iteration
writes index `i` from index `i + 1` of the current array (indices above
`i` are still unmodified). -/
def shrLoop (r : Nat → Int) (last i cnt : Nat) : Nat → Int :=
  match cnt with
  | 0 => r
  | n + 1 => shrLoop (updN r i (if i = last then 0 else r (i + 1))) last (i + 1) n

/-- Logical shift right a register (`v_reg_shr`); clears carry. -/
def v_reg_shr (h : OProcessor) (d : RegId) : OProcessor :=
  let h' := { h with carry := 0 }
  updReg h' d (shrLoop (h.reg d) h.last h.first (h.last + 1 - h.first))

/-- Loop body of `v_reg_shl`, descending over the field from `last` down
to `first` (`cnt = last + 1 - first` steps); each C iteration writes
index `i` from index `i - 1` of the current array (indices below `i`
are still unmodified). -/
def shlLoop (r : Nat → Int) (first cnt : Nat) : Nat → Int :=
  match cnt with
  | 0 => r
  | n + 1 =>
    let i := first + n
    shlLoop (updN r i (if i = first then 0 else r (i - 1))) first n

/-- Logical shift left a register (`v_reg_shl`); clears carry and
previous carry. -/
def v_reg_shl (h : OProcessor) (d : RegId) : OProcessor :=
  let h' := updReg h d (shlLoop (h.reg d) h.first (h.last + 1 - h.first))
  { h' with prevCarry := 0, carry := 0 }

/-- Clear the CPU registers and the return stack
(`v_processor_clear_registers`); also resets the field window to the
full word. -/
def v_processor_clear_registers (h : OProcessor) : OProcessor :=
  let h := { h with first := 0, last := REG_SIZE - 1 }
  { h with reg := fun j => copyLoop (h.reg j) (fun _ => 0) 0 REG_SIZE,
           stack := fun _ => 0 }

/-- Clear the data registers (`v_processor_clear_data_registers`); also
resets the field window to the full word. -/
def v_processor_clear_data_registers (h : OProcessor) : OProcessor :=
  let h := { h with first := 0, last := REG_SIZE - 1 }
  { h with ram := fun j =>
      if j < DATA_REGISTERS then copyLoop (h.ram j) (fun _ => 0) 0 REG_SIZE
      else h.ram j }

/-- Reset the processor (`v_processor_init`). -/
def v_processor_init (h : OProcessor) : OProcessor :=
  let h := v_processor_clear_registers h
  let h := v_processor_clear_data_registers h
  let h := { h with status := fun _ => 0, carry := 0, prevCarry := 0,
                    delayedRom := 0, displayEnable := 0, mode := 0 }
  let h := updStatus h 5 1
  let h := updStatus h 3 1
  { h with mode := 1, pc := 0, sp := 0, p := 0, f := 0,
           keycode := 0, keydown := 0, base := 10,
           delayedRomNumber := 0, romNumber := 0 }

/-- Create a new processor over a ROM (`h_processor_create`): all
registers zeroed, then `v_processor_init`. -/
def h_processor_create (rom : Int → Nat) : OProcessor :=
  v_processor_init
    { reg := fun _ _ => 0, ram := fun _ _ => 0, stack := fun _ => 0,
      sp := 0, pc := 0, p := 0, f := 0, dataAddress := 0,
      first := 0, last := REG_SIZE - 1, base := 10,
      status := fun _ => 0, carry := 0, prevCarry := 0, delayedRom := 0,
      displayEnable := 0, mode := 0, delayedRomNumber := 0, romNumber := 0,
      keycode := 0, keydown := 0, rom := rom, errors := [] }

/-- Delayed ROM select (`delayed_rom_switch`): when the `DELAYED_ROM`
flag is set, rewrite the high bits of `pc` from `delayed_rom_number`
(`pc := delayed_rom_number << 8 | (pc & 00377)`) and clear the flag. -/
def delayed_rom_switch (h : OProcessor) : OProcessor :=
  if h.delayedRom ≠ 0 then
    { h with pc := (h.delayedRomNumber : Int) * 256 + h.pc % 256,
             delayedRom := 0 }
  else h

/-- Increment the program counter (`v_op_inc_pc`): wrap to 0 past the
end of ROM, latch carry into previous carry, clear carry. -/
def v_op_inc_pc (h : OProcessor) : OProcessor :=
  { h with pc := if h.pc ≥ (ROM_SIZE : Int) - 1 then 0 else h.pc + 1,
           prevCarry := h.carry, carry := 0 }

/-- Jump to subroutine (`op_jsb`): push `pc`, bump `sp` modulo
`STACK_SIZE`, replace the low byte of `pc` with the target minus one,
then apply any pending delayed ROM select. -/
def op_jsb (h : OProcessor) (i : Nat) : OProcessor :=
  let h := { h with stack := fun j => if j = h.sp then h.pc else h.stack j,
                    sp := (h.sp + 1) % (STACK_SIZE : Int),
                    pc := (256 * (h.pc / 256) + (i : Int)) - 1 }
  delayed_rom_switch h

/-- Return from subroutine (`v_op_rtn`): step `sp` back modulo
`STACK_SIZE` and pop the program counter. -/
def v_op_rtn (h : OProcessor) : OProcessor :=
  let h := { h with sp := (h.sp - 1) % (STACK_SIZE : Int) }
  { h with pc := h.stack h.sp }

/-- Conditional go to (`v_op_goto`): when the previous carry is clear,
load `pc` with the full ROM word at `pc` minus one and apply any
pending delayed ROM select; otherwise do nothing. -/
def v_op_goto (h : OProcessor) : OProcessor :=
  if h.prevCarry = 0 then
    delayed_rom_switch { h with pc := (h.rom h.pc : Int) - 1 }
  else h

/-- Hard-wired permutation table for `p = n` (`i_set_p` in
`v_processor_tick`). -/
def i_set_p : List Nat := [14, 4, 7, 8, 11, 2, 10, 12, 1, 3, 13, 6, 0, 9, 5, 14]

/-- Hard-wired permutation table for `if p = n` / `if p <> n`
(`i_tst_p` in `v_processor_tick`). -/
def i_tst_p : List Nat := [4, 8, 12, 2, 9, 1, 6, 3, 1, 13, 5, 0, 11, 10, 7, 4]

/-- Field-modifier decode for arithmetic-class instructions
(`v_processor_tick`, `switch (i_field)`): set `first`/`last` from the
3-bit field code; for the P and WP fields an out-of-range `p` reports an
error and clamps `last`. -/
def decodeField (h : OProcessor) (f : Nat) : OProcessor :=
  match f with
  | 0 =>
    let h := { h with first := h.p, last := h.p }
    if h.p ≥ REG_SIZE then
      { h with errors := EmErr.unexpectedError :: h.errors, last := 0 }
    else h
  | 1 =>
    let h := { h with first := 0, last := h.p }
    if h.p ≥ REG_SIZE then
      { h with errors := EmErr.unexpectedError :: h.errors, last := REG_SIZE - 1 }
    else h
  | 2 => { h with first := EXP_SIZE - 1, last := EXP_SIZE - 1 }
  | 3 => { h with first := 0, last := EXP_SIZE - 1 }
  | 4 => { h with first := REG_SIZE - 1, last := REG_SIZE - 1 }
  | 5 => { h with first := EXP_SIZE, last := REG_SIZE - 2 }
  | 6 => { h with first := 0, last := REG_SIZE - 1 }
  | _ => { h with first := EXP_SIZE, last := REG_SIZE - 1 }

/-- Loop body of `clear s`: clear the 16 status bits except the sticky
bits 1, 2, 5 and 15. -/
def clearSLoop (st : Nat → Nat) (i cnt : Nat) : Nat → Nat :=
  match cnt with
  | 0 => st
  | n + 1 =>
    clearSLoop
      (if i = 1 ∨ i = 2 ∨ i = 5 ∨ i = 15 then st
       else fun j => if j = i then 0 else st j)
      (i + 1) n

/-- Group 0 of the special class (`v_processor_tick`, case 00 of
`(i_opcode >> 2) & 03`). -/
def tickGroup0 (h : OProcessor) (op : Nat) : OProcessor :=
  match (op >>> 4) &&& 3 with
  | 0 => h  -- nop
  | 1 =>
    match op with
    | 0o20 =>  -- keys -> rom address: pc &= 0x0f00; pc += keycode - 1
      { h with pc := 256 * ((h.pc % 4096) / 256) + h.keycode - 1 }
    | 0o420 =>  -- binary
      { h with base := 16 }
    | 0o620 =>  -- p - 1 -> p
      if h.p = 0 then { h with p := REG_SIZE } else { h with p := h.p - 1 }
    | 0o720 =>  -- p + 1 -> p
      if h.p = REG_SIZE then { h with p := 0 } else { h with p := h.p + 1 }
    | 0o1020 =>  -- return
      let h := { h with sp := (h.sp - 1) % (STACK_SIZE : Int) }
      { h with pc := h.stack h.sp }
    | _ => { h with errors := EmErr.unexpectedOpcode op h.romNumber h.pc :: h.errors }
  | 2 =>  -- select rom
    { h with pc := ((op >>> 6 : Nat) : Int) * 256 + h.pc % 256 }
  | _ =>
    match op with
    | 0o1160 =>  -- c -> data address
      let h := { h with dataAddress := h.reg RegId.C 1 * 16 + h.reg RegId.C 0 }
      if h.dataAddress ≥ ((ROM_SIZE * ROM_BANKS : Nat) : Int) then
        { h with errors := EmErr.addressOutOfRange h.dataAddress :: h.errors }
      else h
    | 0o1260 =>  -- clear data registers
      v_processor_clear_data_registers h
    | 0o1760 =>  -- hi I'm woodstock
      h
    | _ => { h with errors := EmErr.unexpectedOpcode op h.romNumber h.pc :: h.errors }

/-- Group 1 of the special class (`v_processor_tick`, case 01 of
`(i_opcode >> 2) & 03`). -/
def tickGroup1 (h : OProcessor) (op : Nat) : OProcessor :=
  match (op >>> 4) &&& 3 with
  | 0 =>  -- 1 -> s(n)
    updStatus h (op >>> 6) 1
  | 1 =>  -- if 1 = s(n)
    let h := { h with carry := if h.status (op >>> 6) ≠ 1 then 1 else 0 }
    v_op_goto (v_op_inc_pc h)
  | 2 =>  -- if p = n
    let h := { h with carry := if h.p = i_tst_p.getD (op >>> 6) 0 then 0 else 1 }
    v_op_goto (v_op_inc_pc h)
  | _ =>  -- delayed select rom n
    { h with delayedRomNumber := op >>> 6, delayedRom := 1 }

/-- Group 2 of the special class (`v_processor_tick`, case 02 of
`(i_opcode >> 2) & 03`). -/
def tickGroup2 (h : OProcessor) (op : Nat) : OProcessor :=
  match (op >>> 4) &&& 3 with
  | 0 =>
    match op with
    | 0o10 =>  -- clear registers
      v_processor_clear_registers h
    | 0o110 =>  -- clear s
      { h with status := clearSLoop h.status 0 16 }
    | 0o210 =>  -- display toggle
      if h.displayEnable = 0 then { h with displayEnable := 1 }
      else { h with displayEnable := 0 }
    | 0o310 =>  -- display off
      { h with displayEnable := 0 }
    | 0o410 =>  -- m1 exch c
      let h := { h with first := 0, last := REG_SIZE - 1 }
      v_reg_exch h RegId.M RegId.C
    | 0o510 =>  -- m1 -> c
      let h := { h with first := 0, last := REG_SIZE - 1 }
      v_reg_copy h RegId.C (some RegId.M)
    | 0o610 =>  -- m2 exch c
      let h := { h with first := 0, last := REG_SIZE - 1 }
      v_reg_exch h RegId.N RegId.C
    | 0o710 =>  -- m2 -> c
      let h := { h with first := 0, last := REG_SIZE - 1 }
      v_reg_copy h RegId.C (some RegId.N)
    | 0o1010 =>  -- stack -> a
      let h := { h with first := 0, last := REG_SIZE - 1 }
      let h := v_reg_copy h RegId.A (some RegId.Y)
      let h := v_reg_copy h RegId.Y (some RegId.Z)
      v_reg_copy h RegId.Z (some RegId.T)
    | 0o1110 =>  -- down rotate
      let h := { h with first := 0, last := REG_SIZE - 1 }
      let h := v_reg_exch h RegId.T RegId.C
      let h := v_reg_exch h RegId.C RegId.Y
      v_reg_exch h RegId.Y RegId.Z
    | 0o1210 =>  -- y -> a
      let h := { h with first := 0, last := REG_SIZE - 1 }
      v_reg_copy h RegId.A (some RegId.Y)
    | 0o1310 =>  -- c -> stack
      let h := { h with first := 0, last := REG_SIZE - 1 }
      let h := v_reg_copy h RegId.T (some RegId.Z)
      let h := v_reg_copy h RegId.Z (some RegId.Y)
      v_reg_copy h RegId.Y (some RegId.C)
    | 0o1410 =>  -- decimal
      { h with base := 10 }
    | 0o1610 =>  -- f -> a
      updReg h RegId.A (updN (h.reg RegId.A) 0 h.f)
    | 0o1710 =>  -- f exch a
      let t := h.reg RegId.A 0
      let h := updReg h RegId.A (updN (h.reg RegId.A) 0 h.f)
      { h with f := t }
    | _ => { h with errors := EmErr.unexpectedOpcode op h.romNumber h.pc :: h.errors }
  | 1 =>  -- load n
    let h := updReg h RegId.C (updN (h.reg RegId.C) h.p ((op >>> 6 : Nat) : Int))
    if h.p > 0 then { h with p := h.p - 1 } else { h with p := REG_SIZE - 1 }
  | 2 =>  -- c -> data register(n)
    { h with errors := EmErr.unexpectedOpcode op h.romNumber h.pc :: h.errors }
  | _ =>  -- c -> addr or data register(n) -> c
    { h with errors := EmErr.unexpectedOpcode op h.romNumber h.pc :: h.errors }

/-- Group 3 of the special class (`v_processor_tick`, case 03 of
`(i_opcode >> 2) & 03`). -/
def tickGroup3 (h : OProcessor) (op : Nat) : OProcessor :=
  match (op >>> 4) &&& 3 with
  | 0 =>  -- 0 -> s(n)
    if op >>> 6 = 5 ∨ op >>> 6 = 15 then
      if h.keydown = 0 then updStatus h 15 0 else h
    else updStatus h (op >>> 6) 0
  | 1 =>  -- if 0 = s(n)
    let h := { h with carry := if h.status (op >>> 6) ≠ 0 then 1 else 0 }
    v_op_goto (v_op_inc_pc h)
  | 2 =>  -- if p <> n
    let h := { h with carry := if h.p = i_tst_p.getD (op >>> 6) 0 then 1 else 0 }
    v_op_goto (v_op_inc_pc h)
  | _ =>  -- p = n
    { h with p := i_set_p.getD (op >>> 6) 0 }

/-- Arithmetic-class execution (`v_processor_tick`, case 02 of
`i_opcode & 03`): decode the field modifier, then dispatch on the 5-bit
operation `i_opcode >> 5` (cases written in octal as in the source). -/
def tickArith (h : OProcessor) (op : Nat) : OProcessor :=
  let h := decodeField h ((op >>> 2) &&& 7)
  match op >>> 5 with
  | 0o0 => v_reg_copy h RegId.A none
  | 0o1 => v_reg_copy h RegId.B none
  | 0o2 => v_reg_exch h RegId.A RegId.B
  | 0o3 => v_reg_copy h RegId.B (some RegId.A)
  | 0o4 => v_reg_exch h RegId.A RegId.C
  | 0o5 => v_reg_copy h RegId.A (some RegId.C)
  | 0o6 => v_reg_copy h RegId.C (some RegId.B)
  | 0o7 => v_reg_exch h RegId.B RegId.C
  | 0o10 => v_reg_copy h RegId.C none
  | 0o11 => v_reg_add h (some RegId.A) RegId.A (some RegId.B)
  | 0o12 => v_reg_add h (some RegId.A) RegId.A (some RegId.C)
  | 0o13 => v_reg_add h (some RegId.C) RegId.C (some RegId.C)
  | 0o14 => v_reg_add h (some RegId.C) RegId.C (some RegId.A)
  | 0o15 => v_reg_inc h RegId.A
  | 0o16 => v_reg_shl h RegId.A
  | 0o17 => v_reg_inc h RegId.C
  | 0o20 => v_reg_sub h (some RegId.A) (some RegId.A) (some RegId.B)
  | 0o21 => v_reg_sub h (some RegId.C) (some RegId.A) (some RegId.C)
  | 0o22 => v_reg_sub { h with carry := 1 } (some RegId.A) (some RegId.A) none
  | 0o23 => v_reg_sub { h with carry := 1 } (some RegId.C) (some RegId.C) none
  | 0o24 => v_reg_sub h (some RegId.C) none (some RegId.C)
  | 0o25 => v_reg_sub { h with carry := 1 } (some RegId.C) none (some RegId.C)
  | 0o26 => v_op_goto (v_op_inc_pc (v_reg_test_eq h RegId.B none))
  | 0o27 => v_op_goto (v_op_inc_pc (v_reg_test_eq h RegId.C none))
  | 0o30 => v_op_goto (v_op_inc_pc (v_reg_sub h none (some RegId.A) (some RegId.C)))
  | 0o31 => v_op_goto (v_op_inc_pc (v_reg_sub h none (some RegId.A) (some RegId.B)))
  | 0o32 => v_op_goto (v_op_inc_pc (v_reg_test_ne h RegId.A none))
  | 0o33 => v_op_goto (v_op_inc_pc (v_reg_test_ne h RegId.C none))
  | 0o34 => v_reg_sub h (some RegId.A) (some RegId.A) (some RegId.C)
  | 0o35 => v_reg_shr h RegId.A
  | 0o36 => v_reg_shr h RegId.B
  | 0o37 => v_reg_shr h RegId.C
  | _ => { h with errors := EmErr.unexpectedError :: h.errors }

/-- Long-branch class (`v_processor_tick`, case 03 of `i_opcode & 03`).
The inner `switch` discriminates on `i_opcode & 03` again, so only the
`if nc goto` arm is reachable; the other arms report errors as in the
source. -/
def tickLongBranch (h : OProcessor) (op : Nat) : OProcessor :=
  match op &&& 3 with
  | 0 => { h with errors := EmErr.unexpectedOpcode op h.romNumber h.pc :: h.errors }
  | 1 => { h with errors := EmErr.unexpectedOpcode op h.romNumber h.pc :: h.errors }
  | 2 => { h with errors := EmErr.unexpectedOpcode op h.romNumber h.pc :: h.errors }
  | _ =>  -- if nc goto
    let h :=
      if h.prevCarry = 0 then
        { h with pc := (256 * (h.pc / 256) + ((op >>> 2 : Nat) : Int)) - 1 }
      else h
    delayed_rom_switch h

/-- Decode and execute a single instruction, without the final program
counter increment (the body of `v_processor_tick`'s `switch`). -/
def v_processor_tick_body (h : OProcessor) : OProcessor :=
  match (h.rom h.pc) &&& 3 with
  | 0 =>
    (match ((h.rom h.pc) >>> 2) &&& 3 with
     | 0 => tickGroup0 h (h.rom h.pc)
     | 1 => tickGroup1 h (h.rom h.pc)
     | 2 => tickGroup2 h (h.rom h.pc)
     | _ => tickGroup3 h (h.rom h.pc))
  | 1 => op_jsb h ((h.rom h.pc) >>> 2)
  | 2 => tickArith h (h.rom h.pc)
  | _ => tickLongBranch h (h.rom h.pc)

/-- Decode and execute a single instruction (`v_processor_tick`): the
instruction body followed by the program counter increment. -/
def v_processor_tick (h : OProcessor) : OProcessor :=
  v_op_inc_pc (v_processor_tick_body h)

/-- Iterated ticks: `tickN n h` runs `v_processor_tick` `n` times. -/
def tickN (n : Nat) (h : OProcessor) : OProcessor :=
  match n with
  | 0 => h
  | k + 1 => tickN k (v_processor_tick h)

/-- Nibble of an optional source register (`NULL` reads as zero). -/
def optNibble (h : OProcessor) (s : Option RegId) (i : Nat) : Int :=
  match s with
  | none => 0
  | some r => h.reg r i

/-- P-set table as enumerated in the spec (§6):
`[14, 4, 7, 8, 11, 2, 10, 12, 1, 3, 13, 6, 0, 9, 5, 14]`. -/
def specPSetTable : List Nat := [14, 4, 7, 8, 11, 2, 10, 12, 1, 3, 13, 6, 0, 9, 5, 14]

/-- P-test table as enumerated in the spec (§6):
`[4, 8, 12, 2, 9, 1, 6, 3, 1, 13, 5, 0, 11, 10, 7, 4]`. -/
def specPTestTable : List Nat := [4, 8, 12, 2, 9, 1, 6, 3, 1, 13, 5, 0, 11, 10, 7, 4]

/-- Field-modifier window exactly as the spec table (§4.2) gives it,
as a function of `p` and the 3-bit field code: P `[p..=p]`, WP `[0..=p]`,
XS `[2..=2]`, X `[0..=1]`, S `[13..=13]`, M `[3..=12]`, W `[0..=13]`,
MS `[3..=13]`. -/
def specFieldWindow (p : Nat) (f : Nat) : Nat × Nat :=
  match f with
  | 0 => (p, p)
  | 1 => (0, p)
  | 2 => (2, 2)
  | 3 => (0, 1)
  | 4 => (13, 13)
  | 5 => (3, 12)
  | 6 => (0, 13)
  | _ => (3, 13)

/-- ROM holding all zeros. -/
def zeroRom : Int → Nat := fun _ => 0

/-- ROM with a single nonzero word `w` at address `a`. -/
def oneWordRom (a : Int) (w : Nat) : Int → Nat :=
  fun x => if x = a then w else 0

/-- ROM with nonzero words `w0` at address `a` and `w1` at `a + 1`. -/
def twoWordRom (a : Int) (w0 w1 : Nat) : Int → Nat :=
  fun x => if x = a then w0 else if x = a + 1 then w1 else 0

/-- State for the C1 counterexample: a fresh processor about to execute
opcode 14 = `0 -> a[x]` (arithmetic class, field code 3 = X). -/
def c1State : OProcessor := h_processor_create (oneWordRom 0 14)

/-- State for the C1 witness: a fresh processor with `p = 5`. -/
def c1Wit : OProcessor := { h_processor_create zeroRom with p := 5 }

/-- State for the C2 witness: a fresh processor. -/
def c2Wit : OProcessor := h_processor_create zeroRom

/-- State for the C3 witness: a fresh processor with distinct A and B
over the word field. -/
def c3Wit : OProcessor :=
  let s := h_processor_create zeroRom
  updReg { s with first := 0, last := 13 } RegId.A (fun i => if i = 7 then 3 else 0)

/-- ROM for the C4 counterexample: `binary` (00420), then
`c - 1 -> c[w]` (opcode 634), then `decimal` (01410). -/
def c4Rom : Int → Nat :=
  fun a => if a = 0 then 0o420 else if a = 1 then 634 else if a = 2 then 0o1410 else 0

/-- State for the C4 counterexample: a fresh processor on `c4Rom`. -/
def c4State : OProcessor := h_processor_create c4Rom

/-- State for the C4 witness: base 10, all digits 0, carry clear, word
field selected (written as a plain literal state so its fields reduce
definitionally under variable register and nibble indices). -/
def c4Wit : OProcessor :=
  { reg := fun _ _ => 0, ram := fun _ _ => 0, stack := fun _ => 0, sp := 0,
    pc := 0, p := 0, f := 0, dataAddress := 0, first := 0, last := 13,
    base := 10, status := fun _ => 0, carry := 0, prevCarry := 0,
    delayedRom := 0, displayEnable := 0, mode := 1, delayedRomNumber := 0,
    romNumber := 0, keycode := 0, keydown := 0, rom := zeroRom, errors := [] }

/-- State for the C5 `p = n` witness: a fresh processor about to execute
opcode 252 (`p = n` with table index 3). -/
def c5WitSet : OProcessor := h_processor_create (oneWordRom 0 252)

/-- State for the C5 `if p = n` witness: `p = 4`, about to execute
opcode 36 (`if p = n` with table index 0, so the test value is 4),
followed by the branch word 100. -/
def c5WitTst : OProcessor :=
  { h_processor_create (twoWordRom 0 36 100) with p := 4 }

/-- State for the C5 `if p <> n` witness: `p = 4`, about to execute
opcode 44 (`if p <> n` with table index 0, so the test value is 4),
followed by the branch word 100. -/
def c5WitTstNe : OProcessor :=
  { h_processor_create (twoWordRom 0 44 100) with p := 4 }

/-- State for the C6 counterexample: status bit 1 set, a key held down,
about to execute opcode 76 = `0 -> s(1)`. -/
def c6State : OProcessor :=
  let s := h_processor_create (oneWordRom 0 76)
  updStatus { s with keydown := 1 } 1 1

/-- State for the C6 witness, part 1: every status bit set, about to
execute opcode 00110 = `clear s`. -/
def c6WitClr : OProcessor :=
  { h_processor_create (oneWordRom 0 0o110) with status := fun _ => 1 }

/-- State for the C6 witness, part 2: every status bit set, a key held
down, about to execute opcode 00514 = `0 -> s(5)`. -/
def c6WitS5 : OProcessor :=
  { h_processor_create (oneWordRom 0 0o514) with status := fun _ => 1, keydown := 1 }

/-- State for C7: status bit 4 set, `pc = 0x010` (page 0), about to
execute opcode 276 = `if 1 = s(4)` followed by the branch word
`0x123`. -/
def c7State : OProcessor :=
  let s := h_processor_create (twoWordRom 16 276 0x123)
  updStatus { s with pc := 16 } 4 1

/-- State for C8: base 10, C = `0 0 0 0 0 0 0 0 0 0 9 9 9 9`, about to
execute opcode 506 = `c + 1 -> c[w]`. -/
def c8State : OProcessor :=
  let s := h_processor_create (oneWordRom 0 506)
  updReg s RegId.C (fun i => if i < 4 then 9 else 0)

/-- State for the C9 counterexample: `p = 14` (one past the register
width), `A` nonzero, about to execute opcode 6 = `0 -> a[wp]`. -/
def c9State : OProcessor :=
  let s := h_processor_create (oneWordRom 0 6)
  updReg { s with p := 14 } RegId.A (fun i => if i = 0 then 1 else 0)

/-- State for the C9 witness: about to execute the undocumented opcode
40 (`c -> data register(n)` slot, group 2 case 02). -/
def c9Wit : OProcessor := h_processor_create (oneWordRom 0 40)

/-- State for the C10 witness: `PREV_CARRY = 1`, a delayed ROM select
for bank 2 pending, at `pc = 100`, about to execute opcode 01403
(class 11, `if nc goto`). -/
def c10Wit : OProcessor :=
  { h_processor_create (oneWordRom 100 0o1403) with
    pc := 100, prevCarry := 1, delayedRom := 1, delayedRomNumber := 2 }

theorem tick_eq_inc_body (h : OProcessor) :
    v_processor_tick h = v_op_inc_pc (v_processor_tick_body h) := rfl

theorem tick_body_group1 (h : OProcessor) (op : Nat) (hrom : h.rom h.pc = op)
    (h3 : op &&& 3 = 0) (hg : (op >>> 2) &&& 3 = 1) :
    v_processor_tick_body h = tickGroup1 h op := by
  unfold v_processor_tick_body
  rw [hrom, h3, hg]

theorem tick_body_group2 (h : OProcessor) (op : Nat) (hrom : h.rom h.pc = op)
    (h3 : op &&& 3 = 0) (hg : (op >>> 2) &&& 3 = 2) :
    v_processor_tick_body h = tickGroup2 h op := by
  unfold v_processor_tick_body
  rw [hrom, h3, hg]

theorem tick_body_group3 (h : OProcessor) (op : Nat) (hrom : h.rom h.pc = op)
    (h3 : op &&& 3 = 0) (hg : (op >>> 2) &&& 3 = 3) :
    v_processor_tick_body h = tickGroup3 h op := by
  unfold v_processor_tick_body
  rw [hrom, h3, hg]

theorem tick_body_long_branch (h : OProcessor) (op : Nat) (hrom : h.rom h.pc = op)
    (h3 : op &&& 3 = 3) :
    v_processor_tick_body h = tickLongBranch h op := by
  unfold v_processor_tick_body
  rw [hrom, h3]

theorem tickGroup1_test_s (h : OProcessor) (op : Nat) (hsub : (op >>> 4) &&& 3 = 1) :
    tickGroup1 h op =
      v_op_goto (v_op_inc_pc
        { h with carry := if h.status (op >>> 6) ≠ 1 then 1 else 0 }) := by
  unfold tickGroup1
  rw [hsub]

theorem tickGroup1_test_p (h : OProcessor) (op : Nat) (hsub : (op >>> 4) &&& 3 = 2) :
    tickGroup1 h op =
      v_op_goto (v_op_inc_pc
        { h with carry := if h.p = i_tst_p.getD (op >>> 6) 0 then 0 else 1 }) := by
  unfold tickGroup1
  rw [hsub]

theorem tickGroup2_err (h : OProcessor) (op : Nat) (hsub : (op >>> 4) &&& 3 = 2) :
    tickGroup2 h op =
      { h with errors := EmErr.unexpectedOpcode op h.romNumber h.pc :: h.errors } := by
  unfold tickGroup2
  rw [hsub]

theorem tickGroup3_test_ne_p (h : OProcessor) (op : Nat) (hsub : (op >>> 4) &&& 3 = 2) :
    tickGroup3 h op =
      v_op_goto (v_op_inc_pc
        { h with carry := if h.p = i_tst_p.getD (op >>> 6) 0 then 1 else 0 }) := by
  unfold tickGroup3
  rw [hsub]

theorem tickGroup3_set_p (h : OProcessor) (op : Nat) (hsub : (op >>> 4) &&& 3 = 3) :
    tickGroup3 h op = { h with p := i_set_p.getD (op >>> 6) 0 } := by
  unfold tickGroup3
  rw [hsub]

theorem incGotoInc_pc (h : OProcessor) (t : Nat)
    (h2 : h.pc + 1 < (ROM_SIZE : Int) - 1)
    (hd : h.delayedRom = 0) (hromt : h.rom (h.pc + 1) = t)
    (ht : (t : Int) ≤ (ROM_SIZE : Int) - 2) :
    (v_op_inc_pc (v_op_goto (v_op_inc_pc h))).pc =
      (if h.carry = 0 then (t : Int) else h.pc + 2) := by
  have hR : ((ROM_SIZE : Nat) : Int) = 3584 := by norm_num [ROM_SIZE]
  rw [hR] at h2 ht
  simp only [v_op_inc_pc, v_op_goto, delayed_rom_switch, hR]
  split_ifs <;> simp_all <;> omega

theorem mismatchLoop_false_iff (d s : Nat → Int) :
    ∀ cnt i, mismatchLoop d s i cnt = false ↔
      ∀ j, i ≤ j → j < i + cnt → d j = s j := by
  intro cnt
  induction cnt with
  | zero =>
    intro i
    constructor
    · intro _ j hj1 hj2
      omega
    · intro _
      rfl
  | succ n ih =>
    intro i
    by_cases hdi : d i = s i
    · have hstep : mismatchLoop d s i (n + 1) = mismatchLoop d s (i + 1) n := by
        simp [mismatchLoop, hdi]
      rw [hstep, ih (i + 1)]
      constructor
      · intro hall j hj1 hj2
        rcases Nat.eq_or_lt_of_le hj1 with hji | hji
        · exact hji ▸ hdi
        · exact hall j hji (by omega)
      · intro hall j hj1 hj2
        exact hall j (by omega) (by omega)
    · have hstep : mismatchLoop d s i (n + 1) = true := by
        simp [mismatchLoop, hdi]
      rw [hstep]
      constructor
      · intro hfalse
        exact absurd hfalse (by simp)
      · intro hall
        exact absurd (hall i (Nat.le_refl i) (by omega)) hdi

theorem clearSLoop_get (j : Nat) :
    ∀ cnt i st, clearSLoop st i cnt j =
      if i ≤ j ∧ j < i + cnt ∧ ¬(j = 1 ∨ j = 2 ∨ j = 5 ∨ j = 15) then 0
      else st j := by
  intro cnt
  induction cnt with
  | zero =>
    intro i st
    rw [if_neg (by omega)]
    rfl
  | succ n ih =>
    intro i st
    rw [show clearSLoop st i (n + 1) =
      clearSLoop
        (if i = 1 ∨ i = 2 ∨ i = 5 ∨ i = 15 then st
         else fun x => if x = i then 0 else st x) (i + 1) n from rfl]
    rw [ih]
    rw [apply_ite (fun f : Nat → Nat => f j)]
    split_ifs <;> first | rfl | omega

theorem addLoop_bounds (base : Int) (src arg : Nat → Int)
    (hs : ∀ j, 0 ≤ src j ∧ src j < base) (ha : ∀ j, 0 ≤ arg j ∧ arg j < base) :
    ∀ cnt i dst carry, carry ≤ 1 → (∀ j, 0 ≤ dst j ∧ dst j < base) →
      (addLoop base (some dst) src arg carry i cnt).2 ≤ 1 ∧
      ∃ d', (addLoop base (some dst) src arg carry i cnt).1 = some d' ∧
        ∀ j, 0 ≤ d' j ∧ d' j < base := by
  intro cnt
  induction cnt with
  | zero =>
    intro i dst carry hc hdst
    exact ⟨hc, dst, rfl, hdst⟩
  | succ n ih =>
    intro i dst carry hc hdst
    have hsi := hs i
    have hai := ha i
    by_cases hcase : src i + arg i + (carry : Int) ≥ base
    · have hstep : addLoop base (some dst) src arg carry i (n + 1) =
          addLoop base (some (updN dst i (src i + arg i + (carry : Int) - base)))
            src arg 1 (i + 1) n := by
        simp [addLoop, hcase]
      rw [hstep]
      refine ih (i + 1) _ 1 (Nat.le_refl 1) ?_
      intro j
      unfold updN
      split_ifs
      · constructor <;> omega
      · exact hdst j
    · have hstep : addLoop base (some dst) src arg carry i (n + 1) =
          addLoop base (some (updN dst i (src i + arg i + (carry : Int))))
            src arg 0 (i + 1) n := by
        simp [addLoop, hcase]
      rw [hstep]
      refine ih (i + 1) _ 0 (by omega) ?_
      intro j
      unfold updN
      split_ifs
      · constructor <;> omega
      · exact hdst j

theorem subLoop_bounds_none (base : Int) (arg : Nat → Int)
    (ha : ∀ j, 0 ≤ arg j ∧ arg j < base) :
    ∀ cnt i dst carry, carry ≤ 1 → (∀ j, 0 ≤ dst j ∧ dst j < base) →
      (subLoop base (some dst) none arg carry i cnt).2 ≤ 1 ∧
      ∃ d', (subLoop base (some dst) none arg carry i cnt).1 = some d' ∧
        ∀ j, 0 ≤ d' j ∧ d' j < base := by
  intro cnt
  induction cnt with
  | zero =>
    intro i dst carry hc hdst
    exact ⟨hc, dst, rfl, hdst⟩
  | succ n ih =>
    intro i dst carry hc hdst
    have hai := ha i
    simp only [subLoop, Option.map_some']
    by_cases hcase : (0 : Int) - arg i - (carry : Int) < 0
    · rw [if_pos hcase]
      refine ih (i + 1) (updN dst i (0 - arg i - (carry : Int) + base)) 1
        (Nat.le_refl 1) ?_
      intro j
      unfold updN
      split_ifs
      · constructor <;> omega
      · exact hdst j
    · rw [if_neg hcase]
      refine ih (i + 1) (updN dst i (0 - arg i - (carry : Int))) 0 (by omega) ?_
      intro j
      unfold updN
      split_ifs
      · constructor <;> omega
      · exact hdst j

theorem subLoop_bounds_some (base : Int) (s arg : Nat → Int)
    (hs : ∀ j, 0 ≤ s j ∧ s j < base)
    (ha : ∀ j, 0 ≤ arg j ∧ arg j < base) :
    ∀ cnt i dst carry, carry ≤ 1 → (∀ j, 0 ≤ dst j ∧ dst j < base) →
      (subLoop base (some dst) (some s) arg carry i cnt).2 ≤ 1 ∧
      ∃ d', (subLoop base (some dst) (some s) arg carry i cnt).1 = some d' ∧
        ∀ j, 0 ≤ d' j ∧ d' j < base := by
  intro cnt
  induction cnt with
  | zero =>
    intro i dst carry hc hdst
    exact ⟨hc, dst, rfl, hdst⟩
  | succ n ih =>
    intro i dst carry hc hdst
    have hai := ha i
    have hsi := hs i
    simp only [subLoop, Option.map_some']
    by_cases hcase : s i - arg i - (carry : Int) < 0
    · rw [if_pos hcase]
      refine ih (i + 1) (updN dst i (s i - arg i - (carry : Int) + base)) 1
        (Nat.le_refl 1) ?_
      intro j
      unfold updN
      split_ifs
      · constructor <;> omega
      · exact hdst j
    · rw [if_neg hcase]
      refine ih (i + 1) (updN dst i (s i - arg i - (carry : Int))) 0 (by omega) ?_
      intro j
      unfold updN
      split_ifs
      · constructor <;> omega
      · exact hdst j

theorem testCarry_spec (dreg srcFn : Nat → Int) (first last : Nat) :
    ((if mismatchLoop dreg srcFn first (last + 1 - first) then (1 : Nat) else 0) = 0 ↔
      ∀ i, first ≤ i → i ≤ last → dreg i = srcFn i) ∧
    ((if mismatchLoop dreg srcFn first (last + 1 - first) then (0 : Nat) else 1) = 0 ↔
      ∃ i, first ≤ i ∧ i ≤ last ∧ dreg i ≠ srcFn i) := by
  have key := mismatchLoop_false_iff dreg srcFn (last + 1 - first) first
  have hrange : (∀ j, first ≤ j → j < first + (last + 1 - first) → dreg j = srcFn j) ↔
      (∀ i, first ≤ i → i ≤ last → dreg i = srcFn i) := by
    constructor
    · intro H i h1 h2
      exact H i h1 (by omega)
    · intro H i h1 h2
      exact H i h1 (by omega)
  rw [hrange] at key
  cases hb : mismatchLoop dreg srcFn first (last + 1 - first) with
  | false =>
    have hall := key.mp hb
    constructor
    · rw [if_neg (by decide : ¬ (false = true))]
      exact iff_of_true rfl hall
    · rw [if_neg (by decide : ¬ (false = true))]
      refine iff_of_false one_ne_zero ?_
      rintro ⟨i, h1, h2, hne⟩
      exact hne (hall i h1 h2)
  | true =>
    have hnall : ¬ ∀ i, first ≤ i → i ≤ last → dreg i = srcFn i := by
      intro hall
      have hcontra := key.mpr hall
      rw [hb] at hcontra
      exact absurd hcontra (by decide)
    constructor
    · rw [if_pos rfl]
      exact iff_of_false one_ne_zero hnall
    · rw [if_pos rfl]
      refine iff_of_true rfl ?_
      push_neg at hnall
      obtain ⟨i, h1, h2, hne⟩ := hnall
      exact ⟨i, h1, h2, hne⟩

/-- C3: for every pair of registers and every field window
`[first..=last]`, `test_eq` leaves `CARRY = 0` iff every nibble of the
two registers inside the field is equal (`CARRY = 1` otherwise), and
`test_ne` has the opposite polarity: `CARRY = 0` iff some nibble inside
the field differs. -/
theorem C3_test_eq_ne (h : OProcessor) (d : RegId) (s : Option RegId) :
    ((v_reg_test_eq h d s).carry = 0 ↔
      ∀ i, h.first ≤ i → i ≤ h.last → h.reg d i = optNibble h s i) ∧
    ((v_reg_test_eq h d s).carry = 0 ∨ (v_reg_test_eq h d s).carry = 1) ∧
    ((v_reg_test_ne h d s).carry = 0 ↔
      ∃ i, h.first ≤ i ∧ i ≤ h.last ∧ h.reg d i ≠ optNibble h s i) ∧
    ((v_reg_test_ne h d s).carry = 0 ∨ (v_reg_test_ne h d s).carry = 1) := by
  cases s with
  | none =>
    have spec := testCarry_spec (h.reg d) (fun _ => 0) h.first h.last
    have heq : (v_reg_test_eq h d none).carry =
        (if mismatchLoop (h.reg d) (fun _ => 0) h.first (h.last + 1 - h.first)
         then 1 else 0) := rfl
    have hne : (v_reg_test_ne h d none).carry =
        (if mismatchLoop (h.reg d) (fun _ => 0) h.first (h.last + 1 - h.first)
         then 0 else 1) := rfl
    refine ⟨spec.1, ?_, spec.2, ?_⟩
    · rw [heq]
      split_ifs <;> simp
    · rw [hne]
      split_ifs <;> simp
  | some r =>
    have spec := testCarry_spec (h.reg d) (h.reg r) h.first h.last
    have heq : (v_reg_test_eq h d (some r)).carry =
        (if mismatchLoop (h.reg d) (h.reg r) h.first (h.last + 1 - h.first)
         then 1 else 0) := rfl
    have hne : (v_reg_test_ne h d (some r)).carry =
        (if mismatchLoop (h.reg d) (h.reg r) h.first (h.last + 1 - h.first)
         then 0 else 1) := rfl
    refine ⟨spec.1, ?_, spec.2, ?_⟩
    · rw [heq]
      split_ifs <;> simp
    · rw [hne]
      split_ifs <;> simp

/-- C1 counterexample: executing the arithmetic instruction `0 -> a[x]`
(opcode 14, field code 011 = X) sets the window to `[0..=2]`, not the
`[0..=1]` given by the spec's field-modifier table. -/
theorem C1_counterexample :
    specFieldWindow c1State.p 3 = (0, 1) ∧
    (v_processor_tick c1State).first = 0 ∧
    (v_processor_tick c1State).last = 2 := by
  refine ⟨by decide, by decide, by decide⟩

/-- C1 amended: for an arithmetic-class instruction the decoder sets the
field window `[first..=last]` as follows, provided `p < 14` for the
P-based codes: 000 (P) `[p..=p]`, 001 (WP) `[0..=p]`, 010 (XS)
`[2..=2]`, 011 (X) `[0..=2]` (not `[0..=1]`), 100 (S) `[13..=13]`,
101 (M) `[3..=12]`, 110 (W) `[0..=13]`, 111 (MS) `[3..=13]`. -/
theorem C1_field_window_decode (h : OProcessor) (hp : h.p < REG_SIZE) :
    (decodeField h 0).first = h.p ∧ (decodeField h 0).last = h.p ∧
    (decodeField h 1).first = 0 ∧ (decodeField h 1).last = h.p ∧
    (decodeField h 2).first = 2 ∧ (decodeField h 2).last = 2 ∧
    (decodeField h 3).first = 0 ∧ (decodeField h 3).last = 2 ∧
    (decodeField h 4).first = 13 ∧ (decodeField h 4).last = 13 ∧
    (decodeField h 5).first = 3 ∧ (decodeField h 5).last = 12 ∧
    (decodeField h 6).first = 0 ∧ (decodeField h 6).last = 13 ∧
    (decodeField h 7).first = 3 ∧ (decodeField h 7).last = 13 := by
  have hp14 : h.p < 14 := by simpa [REG_SIZE] using hp
  have hnp : ¬ (14 ≤ h.p) := by omega
  simp [decodeField, hnp, REG_SIZE, EXP_SIZE]

theorem C1_field_window_decode_witness :
    c1Wit.p < REG_SIZE ∧ (decodeField c1Wit 0).first = c1Wit.p :=
  ⟨by decide, (C1_field_window_decode c1Wit (by decide)).1⟩

/-- C2: the program-counter advance `v_op_inc_pc` maps `pc` within the
ROM window to `(pc + 1) mod ROM_SIZE`, latching `PREV_CARRY := CARRY`
and `CARRY := 0`; and for every state the tick is exactly the decoded
instruction body followed by this single advance, so the tick ends with
`CARRY = 0` and with `PREV_CARRY` equal to the carry produced by the
instruction body — `CARRY` is not cleared anywhere else on the fetch
path. -/
theorem C2_pc_advance :
    (∀ h : OProcessor, 0 ≤ h.pc → h.pc < (ROM_SIZE : Int) →
      (v_op_inc_pc h).pc = (h.pc + 1) % (ROM_SIZE : Int) ∧
      (v_op_inc_pc h).prevCarry = h.carry ∧ (v_op_inc_pc h).carry = 0) ∧
    (∀ h : OProcessor,
      v_processor_tick h = v_op_inc_pc (v_processor_tick_body h) ∧
      (v_processor_tick h).carry = 0 ∧
      (v_processor_tick h).prevCarry = (v_processor_tick_body h).carry) := by
  constructor
  · intro h h0 h1
    have hR : ((ROM_SIZE : Nat) : Int) = 3584 := by norm_num [ROM_SIZE]
    rw [hR] at h1
    refine ⟨?_, rfl, rfl⟩
    unfold v_op_inc_pc
    rw [hR]
    by_cases hc : h.pc ≥ 3584 - 1
    · rw [if_pos hc]
      have hpc : h.pc = 3583 := by omega
      rw [hpc]
      show (0 : Int) = (3583 + 1) % 3584
      decide
    · rw [if_neg hc]
      rw [Int.emod_eq_of_lt (by omega) (by omega)]
  · intro h
    exact ⟨rfl, rfl, rfl⟩

theorem C2_pc_advance_witness :
    0 ≤ c2Wit.pc ∧ c2Wit.pc < (ROM_SIZE : Int) ∧
    (v_op_inc_pc c2Wit).pc = (c2Wit.pc + 1) % (ROM_SIZE : Int) :=
  ⟨by decide, by decide, (C2_pc_advance.1 c2Wit (by decide) (by decide)).1⟩

theorem v_reg_add_bounds (h : OProcessor) (d s : RegId) (a : Option RegId)
    (hc : h.carry ≤ 1) (hall : ∀ r i, 0 ≤ h.reg r i ∧ h.reg r i < h.base) :
    (v_reg_add h (some d) s a).carry ≤ 1 ∧
    ∀ r i, 0 ≤ (v_reg_add h (some d) s a).reg r i ∧
      (v_reg_add h (some d) s a).reg r i < h.base := by
  have hbase : (1 : Int) ≤ h.base := by
    have h1 := (hall RegId.A 0).1
    have h2 := (hall RegId.A 0).2
    omega
  rcases a with _ | ar
  · obtain ⟨hcar, d', hd', hbnd⟩ :=
      addLoop_bounds h.base (h.reg s) (fun _ => 0) (hall s)
        (fun _ => ⟨le_refl 0, show (0 : Int) < h.base by omega⟩)
        (h.last + 1 - h.first) h.first
        (h.reg d) h.carry hc (hall d)
    have hres : v_reg_add h (some d) s none =
        updReg { h with carry := (addLoop h.base (some (h.reg d)) (h.reg s)
          (fun _ => 0) h.carry h.first (h.last + 1 - h.first)).2 } d d' := by
      unfold v_reg_add
      dsimp only [Option.map_some']
      rw [hd']
    rw [hres]
    refine ⟨hcar, ?_⟩
    intro r i
    by_cases hrd : r = d
    · subst hrd
      simpa [updReg] using hbnd i
    · simpa [updReg, hrd] using hall r i
  · obtain ⟨hcar, d', hd', hbnd⟩ :=
      addLoop_bounds h.base (h.reg s) (h.reg ar) (hall s) (hall ar)
        (h.last + 1 - h.first) h.first (h.reg d) h.carry hc (hall d)
    have hres : v_reg_add h (some d) s (some ar) =
        updReg { h with carry := (addLoop h.base (some (h.reg d)) (h.reg s)
          (h.reg ar) h.carry h.first (h.last + 1 - h.first)).2 } d d' := by
      unfold v_reg_add
      dsimp only [Option.map_some']
      rw [hd']
    rw [hres]
    refine ⟨hcar, ?_⟩
    intro r i
    by_cases hrd : r = d
    · subst hrd
      simpa [updReg] using hbnd i
    · simpa [updReg, hrd] using hall r i

theorem v_reg_sub_bounds (h : OProcessor) (d : RegId) (s a : Option RegId)
    (hc : h.carry ≤ 1) (hall : ∀ r i, 0 ≤ h.reg r i ∧ h.reg r i < h.base) :
    (v_reg_sub h (some d) s a).carry ≤ 1 ∧
    ∀ r i, 0 ≤ (v_reg_sub h (some d) s a).reg r i ∧
      (v_reg_sub h (some d) s a).reg r i < h.base := by
  have hbase : (1 : Int) ≤ h.base := by
    have h1 := (hall RegId.A 0).1
    have h2 := (hall RegId.A 0).2
    omega
  have hzero : ∀ j : Nat, 0 ≤ (fun _ : Nat => (0 : Int)) j ∧
      (fun _ : Nat => (0 : Int)) j < h.base :=
    fun _ => ⟨le_refl 0, show (0 : Int) < h.base by omega⟩
  rcases s with _ | sr <;> rcases a with _ | ar
  · obtain ⟨hcar, d', hd', hbnd⟩ :=
      subLoop_bounds_none h.base (fun _ => 0) hzero
        (h.last + 1 - h.first) h.first (h.reg d) h.carry hc (hall d)
    have hres : v_reg_sub h (some d) none none =
        updReg { h with carry := (subLoop h.base (some (h.reg d)) none
          (fun _ => 0) h.carry h.first (h.last + 1 - h.first)).2 } d d' := by
      unfold v_reg_sub
      dsimp only [Option.map_some', Option.map_none']
      rw [hd']
    rw [hres]
    refine ⟨hcar, ?_⟩
    intro r i
    by_cases hrd : r = d
    · subst hrd
      simpa [updReg] using hbnd i
    · simpa [updReg, hrd] using hall r i
  · obtain ⟨hcar, d', hd', hbnd⟩ :=
      subLoop_bounds_none h.base (h.reg ar) (hall ar)
        (h.last + 1 - h.first) h.first (h.reg d) h.carry hc (hall d)
    have hres : v_reg_sub h (some d) none (some ar) =
        updReg { h with carry := (subLoop h.base (some (h.reg d)) none
          (h.reg ar) h.carry h.first (h.last + 1 - h.first)).2 } d d' := by
      unfold v_reg_sub
      dsimp only [Option.map_some', Option.map_none']
      rw [hd']
    rw [hres]
    refine ⟨hcar, ?_⟩
    intro r i
    by_cases hrd : r = d
    · subst hrd
      simpa [updReg] using hbnd i
    · simpa [updReg, hrd] using hall r i
  · obtain ⟨hcar, d', hd', hbnd⟩ :=
      subLoop_bounds_some h.base (h.reg sr) (fun _ => 0) (hall sr) hzero
        (h.last + 1 - h.first) h.first (h.reg d) h.carry hc (hall d)
    have hres : v_reg_sub h (some d) (some sr) none =
        updReg { h with carry := (subLoop h.base (some (h.reg d))
          (some (h.reg sr)) (fun _ => 0) h.carry h.first
          (h.last + 1 - h.first)).2 } d d' := by
      unfold v_reg_sub
      dsimp only [Option.map_some', Option.map_none']
      rw [hd']
    rw [hres]
    refine ⟨hcar, ?_⟩
    intro r i
    by_cases hrd : r = d
    · subst hrd
      simpa [updReg] using hbnd i
    · simpa [updReg, hrd] using hall r i
  · obtain ⟨hcar, d', hd', hbnd⟩ :=
      subLoop_bounds_some h.base (h.reg sr) (h.reg ar) (hall sr) (hall ar)
        (h.last + 1 - h.first) h.first (h.reg d) h.carry hc (hall d)
    have hres : v_reg_sub h (some d) (some sr) (some ar) =
        updReg { h with carry := (subLoop h.base (some (h.reg d))
          (some (h.reg sr)) (h.reg ar) h.carry h.first
          (h.last + 1 - h.first)).2 } d d' := by
      unfold v_reg_sub
      dsimp only [Option.map_some', Option.map_none']
      rw [hd']
    rw [hres]
    refine ⟨hcar, ?_⟩
    intro r i
    by_cases hrd : r = d
    · subst hrd
      simpa [updReg] using hbnd i
    · simpa [updReg, hrd] using hall r i

/-- C4 counterexample: from reset, the reachable three-tick sequence
`binary; c - 1 -> c[w]; decimal` leaves `base = 10` while nibble 0 of C
is 15, so after the `decimal` tick a register nibble lies outside
`0..base`. -/
theorem C4_counterexample :
    (tickN 3 c4State).base = 10 ∧
    (tickN 3 c4State).reg RegId.C 0 = 15 ∧
    ¬ ((tickN 3 c4State).reg RegId.C 0 ≤ (tickN 3 c4State).base) := by
  refine ⟨by decide, by decide, by decide⟩

/-- C4 amended: the field-scoped add and subtract operations preserve
the digit-range invariant — if every nibble of every register is in
`0..base-1` and `carry ≤ 1`, then after `v_reg_add` / `v_reg_sub` every
nibble is again in `0..base-1` and `carry ≤ 1`.  The unconditional
after-any-tick form fails: a tick that executes `decimal` while a
register holds a hexadecimal digit `≥ 10` (see the counterexample)
leaves a nibble outside `0..base`. -/
theorem C4_digit_range :
    (∀ (h : OProcessor) (d s : RegId) (a : Option RegId), h.carry ≤ 1 →
      (∀ r i, 0 ≤ h.reg r i ∧ h.reg r i < h.base) →
      (v_reg_add h (some d) s a).carry ≤ 1 ∧
      ∀ r i, 0 ≤ (v_reg_add h (some d) s a).reg r i ∧
        (v_reg_add h (some d) s a).reg r i < h.base) ∧
    (∀ (h : OProcessor) (d : RegId) (s a : Option RegId), h.carry ≤ 1 →
      (∀ r i, 0 ≤ h.reg r i ∧ h.reg r i < h.base) →
      (v_reg_sub h (some d) s a).carry ≤ 1 ∧
      ∀ r i, 0 ≤ (v_reg_sub h (some d) s a).reg r i ∧
        (v_reg_sub h (some d) s a).reg r i < h.base) :=
  ⟨fun h d s a hc hall => v_reg_add_bounds h d s a hc hall,
   fun h d s a hc hall => v_reg_sub_bounds h d s a hc hall⟩

theorem C4_digit_range_witness :
    c4Wit.carry ≤ 1 ∧
    (v_reg_add c4Wit (some RegId.C) RegId.C none).carry ≤ 1 :=
  ⟨by decide,
   ((C4_digit_range.1 c4Wit RegId.C RegId.C none (by decide)
      (fun r i => ⟨le_refl 0, show (0 : Int) < 10 by norm_num⟩)).1)⟩

/-- C5: the implementation's permuted P tables equal the spec's 16-entry
tables exactly; `p = n` sets `p` to `i_set_p[opcode bits 6-9]`, and
`if p = n` / `if p <> n` compare `p` against `i_tst_p[opcode bits 6-9]`,
branching to the following word's target accordingly. -/
theorem C5_p_tables :
    i_set_p = specPSetTable ∧ i_tst_p = specPTestTable ∧
    (∀ (h : OProcessor) (op : Nat),
      h.rom h.pc = op → op &&& 3 = 0 → (op >>> 2) &&& 3 = 3 →
      (op >>> 4) &&& 3 = 3 →
      (v_processor_tick h).p = i_set_p.getD (op >>> 6) 0) ∧
    (∀ (h : OProcessor) (op t : Nat),
      h.rom h.pc = op → op &&& 3 = 0 → (op >>> 2) &&& 3 = 1 →
      (op >>> 4) &&& 3 = 2 →
      h.pc + 1 < (ROM_SIZE : Int) - 1 → h.delayedRom = 0 →
      h.rom (h.pc + 1) = t → (t : Int) ≤ (ROM_SIZE : Int) - 2 →
      (v_processor_tick h).pc =
        (if h.p = i_tst_p.getD (op >>> 6) 0 then (t : Int) else h.pc + 2)) ∧
    (∀ (h : OProcessor) (op t : Nat),
      h.rom h.pc = op → op &&& 3 = 0 → (op >>> 2) &&& 3 = 3 →
      (op >>> 4) &&& 3 = 2 →
      h.pc + 1 < (ROM_SIZE : Int) - 1 → h.delayedRom = 0 →
      h.rom (h.pc + 1) = t → (t : Int) ≤ (ROM_SIZE : Int) - 2 →
      (v_processor_tick h).pc =
        (if h.p = i_tst_p.getD (op >>> 6) 0 then h.pc + 2 else (t : Int))) := by
  refine ⟨by decide, by decide, ?_, ?_, ?_⟩
  · intro h op hrom h3 hg hsub
    rw [tick_eq_inc_body, tick_body_group3 h op hrom h3 hg,
        tickGroup3_set_p h op hsub]
    rfl
  · intro h op t hrom h3 hg hsub h2 hd hromt ht
    rw [tick_eq_inc_body, tick_body_group1 h op hrom h3 hg,
        tickGroup1_test_p h op hsub]
    have key := incGotoInc_pc
      { h with carry := if h.p = i_tst_p.getD (op >>> 6) 0 then 0 else 1 }
      t h2 hd hromt ht
    rw [key]
    by_cases hp : h.p = i_tst_p.getD (op >>> 6) 0
    · simp [hp]
    · simp [hp]
  · intro h op t hrom h3 hg hsub h2 hd hromt ht
    rw [tick_eq_inc_body, tick_body_group3 h op hrom h3 hg,
        tickGroup3_test_ne_p h op hsub]
    have key := incGotoInc_pc
      { h with carry := if h.p = i_tst_p.getD (op >>> 6) 0 then 1 else 0 }
      t h2 hd hromt ht
    rw [key]
    by_cases hp : h.p = i_tst_p.getD (op >>> 6) 0
    · simp [hp]
    · simp [hp]

theorem C5_p_tables_witness :
    (v_processor_tick c5WitSet).p = i_set_p.getD (252 >>> 6) 0 ∧
    (v_processor_tick c5WitTst).pc = ((100 : Nat) : Int) ∧
    (v_processor_tick c5WitTstNe).pc = c5WitTstNe.pc + 2 := by
  refine ⟨C5_p_tables.2.2.1 c5WitSet 252 (by decide) (by decide) (by decide)
    (by decide), ?_, ?_⟩
  · have hx := C5_p_tables.2.2.2.1 c5WitTst 36 100 (by decide) (by decide)
      (by decide) (by decide) (by decide) (by decide) (by decide) (by decide)
    rw [hx]
    decide
  · have hx := C5_p_tables.2.2.2.2 c5WitTstNe 44 100 (by decide) (by decide)
      (by decide) (by decide) (by decide) (by decide) (by decide) (by decide)
    rw [hx]
    decide

/-- C6 counterexample: with a key held down and status bit 1 set,
executing `0 -> s(1)` (opcode 76) clears status bit 1, so bit 1 is not
preserved by `0 -> s(n)` while keydown. -/
theorem C6_counterexample :
    c6State.keydown = 1 ∧ c6State.status 1 = 1 ∧
    (v_processor_tick c6State).status 1 = 0 := by
  refine ⟨by decide, by decide, by decide⟩

/-- C6 amended: `clear s` clears every status bit except bits 1, 2, 5
and 15, which it leaves unchanged; and for n in {5, 15} — but not for
n in {1, 2} — executing `0 -> s(n)` while keydown is set leaves every
status bit unchanged. -/
theorem C6_sticky_status :
    (∀ h : OProcessor, h.rom h.pc = 0o110 →
      ∀ i, (v_processor_tick h).status i =
        (if i = 1 ∨ i = 2 ∨ i = 5 ∨ i = 15 then h.status i
         else if i < 16 then 0 else h.status i)) ∧
    (∀ h : OProcessor, h.keydown ≠ 0 →
      (h.rom h.pc = 0o514 ∨ h.rom h.pc = 0o1714) →
      ∀ i, (v_processor_tick h).status i = h.status i) := by
  constructor
  · intro h hrom i
    have hb : v_processor_tick_body h =
        { h with status := clearSLoop h.status 0 16 } := by
      unfold v_processor_tick_body
      rw [hrom]
      rfl
    rw [tick_eq_inc_body, hb]
    rw [show (v_op_inc_pc { h with status := clearSLoop h.status 0 16 }).status i =
      clearSLoop h.status 0 16 i from rfl]
    rw [clearSLoop_get]
    split_ifs <;> first | rfl | omega
  · intro h hk hrom i
    rcases hrom with hrom | hrom
    · have hb : v_processor_tick_body h =
          (if h.keydown = 0 then updStatus h 15 0 else h) := by
        unfold v_processor_tick_body
        rw [hrom]
        rfl
      rw [tick_eq_inc_body, hb, if_neg hk]
      rfl
    · have hb : v_processor_tick_body h =
          (if h.keydown = 0 then updStatus h 15 0 else h) := by
        unfold v_processor_tick_body
        rw [hrom]
        rfl
      rw [tick_eq_inc_body, hb, if_neg hk]
      rfl

theorem C6_sticky_status_witness :
    (v_processor_tick c6WitClr).status 3 = 0 ∧
    (v_processor_tick c6WitClr).status 5 = 1 ∧
    (v_processor_tick c6WitS5).status 15 = 1 := by
  refine ⟨?_, ?_, ?_⟩
  · rw [C6_sticky_status.1 c6WitClr (by decide) 3]
    decide
  · rw [C6_sticky_status.1 c6WitClr (by decide) 5]
    decide
  · rw [C6_sticky_status.2 c6WitS5 (by decide) (Or.inl (by decide)) 15]
    decide

/-- C7 counterexample: from page 0 (`pc = 0x010`) with status bit 4
set, `if 1 = s(4)` followed by the word `0x123` leaves `pc = 0x123` on
page 1 — the starting page's high bits are not preserved, contradicting
the claim's 8-bit-form parenthetical. -/
theorem C7_counterexample :
    c7State.pc = 16 ∧ (v_processor_tick c7State).pc = 291 ∧
    c7State.pc / 256 = 0 ∧ (v_processor_tick c7State).pc / 256 = 1 := by
  refine ⟨by decide, by decide, by decide, by decide⟩

/-- C7 amended: with status bit 4 set, executing `if 1 = s(4)` whose
following word is `t` takes the branch and leaves `pc = t` for every
starting page: the full word replaces `pc`, so the current page's high
bits are not preserved. -/
theorem C7_s4_branch (h : OProcessor) (t : Nat)
    (hrom : h.rom h.pc = 276) (hs : h.status 4 = 1)
    (h2 : h.pc + 1 < (ROM_SIZE : Int) - 1) (hd : h.delayedRom = 0)
    (hromt : h.rom (h.pc + 1) = t) (ht : (t : Int) ≤ (ROM_SIZE : Int) - 2) :
    (v_processor_tick h).pc = (t : Int) := by
  rw [tick_eq_inc_body, tick_body_group1 h 276 hrom (by decide) (by decide),
      tickGroup1_test_s h 276 (by decide)]
  rw [show (if h.status (276 >>> 6) ≠ 1 then (1 : Nat) else 0) =
    (if h.status 4 ≠ 1 then (1 : Nat) else 0) from rfl]
  rw [hs]
  rw [show (if (1 : Nat) ≠ 1 then (1 : Nat) else 0) = 0 by simp]
  have key := incGotoInc_pc { h with carry := 0 } t h2 hd hromt ht
  rw [key]
  simp

theorem C7_s4_branch_witness :
    c7State.status 4 = 1 ∧ (v_processor_tick c7State).pc = ((291 : Nat) : Int) :=
  ⟨by decide, C7_s4_branch c7State 291 (by decide) (by decide) (by decide)
    (by decide) (by decide) (by decide)⟩

/-- C8 counterexample: in base 10 with C = `0…0 9 9 9 9`, executing
`c + 1 -> c[w]` (opcode 506) leaves nibble 4 of C equal to 1 (C is
10000, not all zeros) and the semantic carry — latched into
`PREV_CARRY` by the tick's PC advance — equal to 0, not 1. -/
theorem C8_counterexample :
    (v_processor_tick c8State).reg RegId.C 4 = 1 ∧
    (v_processor_tick c8State).prevCarry = 0 := by
  refine ⟨by decide, by decide⟩

/-- C8 amended: in base 10, starting from C whose four least-significant
nibbles are 9 and all other nibbles 0, `c + 1 -> c[w]` leaves
C = `0 0 0 0 0 0 0 0 0 1 0 0 0 0` (ten thousand) with the carry out of
the word equal to 0. -/
theorem C8_increment_result :
    (∀ i, i < REG_SIZE →
      (v_processor_tick c8State).reg RegId.C i = (if i = 4 then 1 else 0)) ∧
    (v_processor_tick c8State).prevCarry = 0 ∧
    (v_processor_tick c8State).carry = 0 := by
  refine ⟨by decide, by decide, by decide⟩

/-- C9 counterexample: with `p = 14` (≥ N) the WP field decode reports
the fault (with no (bank, pc, opcode) payload), clamps `last`, and then
still executes the operation — `0 -> a[wp]` zeroes A — and the program
counter advances, so the fault neither halts execution nor leaves the
registers unchanged. -/
theorem C9_counterexample :
    c9State.reg RegId.A 0 = 1 ∧
    (v_processor_tick c9State).reg RegId.A 0 = 0 ∧
    (v_processor_tick c9State).pc = 1 ∧
    (v_processor_tick c9State).errors = [EmErr.unexpectedError] := by
  refine ⟨by decide, by decide, by decide, by decide⟩

/-- C9 amended: an undocumented opcode is reported through the host
error routine with the offending (opcode, bank, pc) data and changes no
register, memory, stack, status or flag state beyond the report — but
execution is not halted: the tick completes and the program counter
advances with the usual carry latch.  (For the P-field fault with
`p ≥ 14` the decoder additionally clamps the window and executes the
operation; see the counterexample.) -/
theorem C9_fault_report (h : OProcessor) (op : Nat)
    (hrom : h.rom h.pc = op) (h3 : op &&& 3 = 0)
    (hg : (op >>> 2) &&& 3 = 2) (hsub : (op >>> 4) &&& 3 = 2) :
    (v_processor_tick h).errors =
      EmErr.unexpectedOpcode op h.romNumber h.pc :: h.errors ∧
    (v_processor_tick h).reg = h.reg ∧
    (v_processor_tick h).ram = h.ram ∧
    (v_processor_tick h).stack = h.stack ∧
    (v_processor_tick h).sp = h.sp ∧
    (v_processor_tick h).status = h.status ∧
    (v_processor_tick h).p = h.p ∧
    (v_processor_tick h).f = h.f ∧
    (v_processor_tick h).base = h.base ∧
    (v_processor_tick h).first = h.first ∧
    (v_processor_tick h).last = h.last ∧
    (v_processor_tick h).delayedRom = h.delayedRom ∧
    (v_processor_tick h).displayEnable = h.displayEnable ∧
    (v_processor_tick h).pc =
      (if h.pc ≥ (ROM_SIZE : Int) - 1 then 0 else h.pc + 1) ∧
    (v_processor_tick h).prevCarry = h.carry ∧
    (v_processor_tick h).carry = 0 := by
  rw [tick_eq_inc_body, tick_body_group2 h op hrom h3 hg,
      tickGroup2_err h op hsub]
  exact ⟨rfl, rfl, rfl, rfl, rfl, rfl, rfl, rfl, rfl, rfl, rfl, rfl, rfl,
    rfl, rfl, rfl⟩

theorem C9_fault_report_witness :
    (v_processor_tick c9Wit).errors =
      EmErr.unexpectedOpcode 40 c9Wit.romNumber c9Wit.pc :: c9Wit.errors :=
  (C9_fault_report c9Wit 40 (by decide) (by decide) (by decide) (by decide)).1

/-- C10: the second word of a long conditional branch (class 11,
`if nc goto`) commits the pending delayed ROM bank — rewriting the high
bits of `pc` from `delayed_rom_number` and clearing `DELAYED_ROM` —
even when `PREV_CARRY = 1` and the branch is not taken; whereas the
short goto after a test instruction is a no-op when `PREV_CARRY ≠ 0`
and commits the pending bank only when the branch is taken. -/
theorem C10_delayed_rom_commit :
    (∀ (h : OProcessor) (op : Nat),
      h.rom h.pc = op → op &&& 3 = 3 → h.delayedRom ≠ 0 → h.prevCarry ≠ 0 →
      (v_processor_tick_body h).delayedRom = 0 ∧
      (v_processor_tick_body h).pc =
        (h.delayedRomNumber : Int) * 256 + h.pc % 256 ∧
      (v_processor_tick h).delayedRom = 0) ∧
    (∀ h : OProcessor, h.prevCarry ≠ 0 → v_op_goto h = h) ∧
    (∀ h : OProcessor, h.prevCarry = 0 → h.delayedRom ≠ 0 →
      (v_op_goto h).delayedRom = 0 ∧
      (v_op_goto h).pc =
        (h.delayedRomNumber : Int) * 256 + ((h.rom h.pc : Int) - 1) % 256) := by
  refine ⟨?_, ?_, ?_⟩
  · intro h op hrom h3 hdr hpc
    have hb : v_processor_tick_body h = tickLongBranch h op :=
      tick_body_long_branch h op hrom h3
    have hlb : tickLongBranch h op = delayed_rom_switch h := by
      unfold tickLongBranch
      rw [h3]
      rw [if_neg hpc]
    have hsw : delayed_rom_switch h =
        { h with pc := (h.delayedRomNumber : Int) * 256 + h.pc % 256,
                 delayedRom := 0 } := by
      unfold delayed_rom_switch
      rw [if_pos hdr]
    refine ⟨?_, ?_, ?_⟩
    · rw [hb, hlb, hsw]
    · rw [hb, hlb, hsw]
    · rw [tick_eq_inc_body, hb, hlb, hsw]
      rfl
  · intro h hpc
    unfold v_op_goto
    rw [if_neg hpc]
  · intro h hpc hdr
    unfold v_op_goto
    rw [if_pos hpc]
    unfold delayed_rom_switch
    constructor
    · dsimp only
      rw [if_pos hdr]
    · dsimp only
      rw [if_pos hdr]

theorem C10_delayed_rom_commit_witness :
    (v_processor_tick_body c10Wit).delayedRom = 0 ∧
    (v_processor_tick_body c10Wit).pc =
      (c10Wit.delayedRomNumber : Int) * 256 + c10Wit.pc % 256 :=
  ⟨((C10_delayed_rom_commit.1 c10Wit 0o1403 (by decide) (by decide)
      (by decide) (by decide)).1),
   ((C10_delayed_rom_commit.1 c10Wit 0o1403 (by decide) (by decide)
      (by decide) (by decide)).2.1)⟩
